import Mathlib

/-!
Verification of the CI notebook-rebuild utilities of this repository:
`scripts/parse_commit.py` (the Change Detector) and
`scripts/run_notebooks.py` (the Batch Rebuilder).

The Python scripts are shallowly embedded: strings are Lean `String`s
manipulated through their character lists (so every definition is
executable and kernel-reducible), the file system visible to the
scripts is an explicit record threaded through the model, and the two
sources of nondeterminism of a run — whether a given notebook execution
raises, including the armed SIGALRM timeout — are an explicit oracle
`Nat → String → ExecOutcome` indexed by loop iteration.
-/

/-! ## String primitives

Python string operations used by the scripts, modelled on `List Char`
so that the kernel can evaluate them.  Python compares strings
lexicographically by code point, which is `Char.toNat` here.
-/

/-- Lexicographic strict comparison of character lists by code point:
the order Python uses for `<` on `str` (a proper prefix is smaller). -/
def charListLt : List Char → List Char → Bool
  | _, [] => false
  | [], _ :: _ => true
  | a :: as, b :: bs =>
    if a.toNat < b.toNat then true
    else if b.toNat < a.toNat then false
    else charListLt as bs

/-- Python's `<=` on strings: `a <= b` iff `not (b < a)`. -/
def strLe (a b : String) : Bool := ! charListLt b.toList a.toList

/-- Python's `s.endswith(suffix)`. -/
def strEndsWith (s sfx : String) : Bool := sfx.toList.isSuffixOf s.toList

/-- Python's `s.startswith(pre)`. -/
def strStartsWith (s pre : String) : Bool := pre.toList.isPrefixOf s.toList

/-- Substring occurrence on character lists (helper for `strContains`). -/
def containsSub (pat : List Char) : List Char → Bool
  | [] => pat.isEmpty
  | x :: xs => pat.isPrefixOf (x :: xs) || containsSub pat xs

/-- Python's `pat in s` on strings: substring containment. -/
def strContains (s pat : String) : Bool := containsSub pat.toList s.toList

/-- The whitespace characters stripped by Python's `str.strip()`
(ASCII part: space, tab, newline, carriage return, vertical tab,
form feed). -/
def pyIsSpace (c : Char) : Bool :=
  c = ' ' || c = '\t' || c = '\n' || c = '\r' || c.toNat = 11 || c.toNat = 12

/-- Python's `s.strip()`: remove leading and trailing whitespace. -/
def strStrip (s : String) : String :=
  String.mk (((s.toList.dropWhile pyIsSpace).reverse.dropWhile pyIsSpace).reverse)

theorem char_eq_of_toNat_eq {a b : Char} (h : a.toNat = b.toNat) : a = b :=
  Char.eq_of_val_eq (UInt32.ext h)

theorem charListLt_asymm : ∀ x y : List Char,
    charListLt x y = true → charListLt y x = false
  | [], [] => by simp [charListLt]
  | [], _ :: _ => by simp [charListLt]
  | _ :: _, [] => by simp [charListLt]
  | a :: as, b :: bs => by
    by_cases h1 : a.toNat < b.toNat <;> by_cases h2 : b.toNat < a.toNat
    · omega
    · simp [charListLt, h1, h2]
    · simp [charListLt, h1, h2]
    · simp only [charListLt, if_neg h1, if_neg h2]
      exact charListLt_asymm as bs

theorem charListLt_conn : ∀ x y : List Char,
    charListLt x y = false → charListLt y x = false → x = y
  | [], [], _, _ => rfl
  | [], _ :: _, h1, _ => by simp [charListLt] at h1
  | _ :: _, [], _, h2 => by simp [charListLt] at h2
  | a :: as, b :: bs, h1, h2 => by
    by_cases hab : a.toNat < b.toNat
    · simp [charListLt, hab] at h1
    · by_cases hba : b.toNat < a.toNat
      · simp [charListLt, hab, hba] at h2
      · simp only [charListLt, if_neg hab, if_neg hba] at h1 h2
        rw [char_eq_of_toNat_eq (show a.toNat = b.toNat by omega),
          charListLt_conn as bs h1 h2]

theorem charListLt_trans : ∀ x y z : List Char,
    charListLt x y = true → charListLt y z = true → charListLt x z = true
  | x, y, [], _, h2 => by cases y <;> simp [charListLt] at h2
  | [], y, _ :: _, _, _ => by simp [charListLt]
  | _ :: _, [], _ :: _, h1, _ => by simp [charListLt] at h1
  | a :: as, b :: bs, c :: cs, h1, h2 => by
    simp only [charListLt] at h1 h2 ⊢
    by_cases hab : a.toNat < b.toNat
    · by_cases hbc : b.toNat < c.toNat
      · rw [if_pos (show a.toNat < c.toNat by omega)]
      · by_cases hcb : c.toNat < b.toNat
        · rw [if_neg hbc, if_pos hcb] at h2; exact absurd h2 (by simp)
        · rw [if_pos (show a.toNat < c.toNat by omega)]
    · by_cases hba : b.toNat < a.toNat
      · rw [if_neg hab, if_pos hba] at h1; exact absurd h1 (by simp)
      · rw [if_neg hab, if_neg hba] at h1
        by_cases hbc : b.toNat < c.toNat
        · rw [if_pos (show a.toNat < c.toNat by omega)]
        · by_cases hcb : c.toNat < b.toNat
          · rw [if_neg hbc, if_pos hcb] at h2; exact absurd h2 (by simp)
          · rw [if_neg hbc, if_neg hcb] at h2
            rw [if_neg (show ¬ a.toNat < c.toNat by omega),
              if_neg (show ¬ c.toNat < a.toNat by omega)]
            exact charListLt_trans as bs cs h1 h2

theorem strLe_total (a b : String) : strLe a b = true ∨ strLe b a = true := by
  unfold strLe
  cases h : charListLt b.toList a.toList with
  | false => left; rfl
  | true => right; rw [charListLt_asymm _ _ h]; rfl

theorem strLe_trans {a b c : String} (h1 : strLe a b = true) (h2 : strLe b c = true) :
    strLe a c = true := by
  unfold strLe at h1 h2 ⊢
  simp only [Bool.not_eq_true'] at h1 h2 ⊢
  cases hca : charListLt c.toList a.toList with
  | false => rfl
  | true =>
    cases hbc : charListLt b.toList c.toList with
    | false =>
      have heq : b.toList = c.toList := charListLt_conn _ _ hbc h2
      rw [heq, hca] at h1
      exact h1
    | true =>
      rw [charListLt_trans _ _ _ hbc hca] at h1
      exact h1

instance strLeDecRel : DecidableRel (fun a b => strLe a b = true) :=
  fun a b => Bool.decEq (strLe a b) true

instance : IsTotal String (fun a b => strLe a b = true) := ⟨strLe_total⟩

instance : IsTrans String (fun a b => strLe a b = true) := ⟨fun _ _ _ => strLe_trans⟩

/-- Python's builtin `sorted` on a list of strings (`run_notebooks.py`
line 142: `notebooks_to_rebuild = sorted(notebooks_to_rebuild)`),
modelled as insertion sort by the code-point order `strLe`.  Equal keys
are identical strings, so stability is immaterial and any sort
producing an ordered permutation is the Python result. -/
def pysorted (l : List String) : List String :=
  l.insertionSort (fun a b => strLe a b = true)

theorem pysorted_perm (l : List String) : List.Perm (pysorted l) l :=
  List.perm_insertionSort _ _

theorem pysorted_sorted (l : List String) :
    List.Sorted (fun a b => strLe a b = true) (pysorted l) :=
  List.sorted_insertionSort _ l

theorem mem_pysorted {l : List String} {x : String} : x ∈ pysorted l ↔ x ∈ l :=
  (pysorted_perm l).mem_iff

/-! ## Change Detector (`scripts/parse_commit.py`)

```
content = [x.strip() for x in content]
changed_notebooks = [line for line in content if line.endswith(".ipynb")]
with open("changed_notebooks.txt", "w") as f:
    if len(changed_notebooks) > 0:
        for fn in changed_notebooks:
            f.write("%s\n" % fn)
```
-/

/-- `content = [x.strip() for x in content]` (parse_commit.py line 9). -/
def stripAll (content : List String) : List String :=
  content.map strStrip

/-- `changed_notebooks = [line for line in content if line.endswith(".ipynb")]`
(parse_commit.py line 11), applied to the stripped lines. -/
def changed_notebooks (content : List String) : List String :=
  (stripAll content).filter (fun line => strEndsWith line ".ipynb")

/-- The state of `changed_notebooks.txt` after parse_commit.py runs,
starting from an absent file: `none` models a missing file, `some ls`
a file whose lines are `ls`.  `open("changed_notebooks.txt", "w")`
(line 15) creates and truncates the file unconditionally; the loop
writing the filtered paths runs only when the filtered list is
non-empty (lines 16-18). -/
def parse_commit_write (content : List String) : Option (List String) :=
  let fileLines : List String := []
  let fileLines :=
    if (changed_notebooks content).length > 0 then changed_notebooks content
    else fileLines
  some fileLines

/-! ## POSIX path handling used by `generate_paths`

`run_notebooks.py` normalizes the notebook path
(`op.normpath(notebook_path)`, line 53) and stages the copy at
`op.join('tmp', op.basename(notebook_path))` (line 61).  `normpath`
is ported from CPython's `posixpath.normpath`, `basename` is the part
after the last slash, and `joinPath` is the two-argument
`os.path.join`.
-/

/-- Split a character list at every occurrence of `c`, keeping empty
segments: the behaviour of Python's `str.split(sep)` for a one-character
separator. -/
def splitOnChar (c : Char) : List Char → List (List Char)
  | [] => [[]]
  | x :: xs =>
    match splitOnChar c xs, decide (x = c) with
    | r, true => [] :: r
    | [], false => [[x]]
    | h :: t, false => (x :: h) :: t

/-- `p.split('/')` on a path string. -/
def pathComps (p : String) : List String :=
  (splitOnChar '/' p.toList).map String.mk

/-- `posixpath.basename(p)`: everything after the last slash. -/
def basename (p : String) : String := (pathComps p).getLastD ""

/-- The component loop of `posixpath.normpath`; `acc` carries the
collected components in reverse.  Mirrors:
```
for comp in comps:
    if comp in ('', '.'): continue
    if (comp != '..' or (not initial_slashes and not new_comps) or
         (new_comps and new_comps[-1] == '..')): new_comps.append(comp)
    elif new_comps: new_comps.pop()
```
-/
def normSplit (absolute : Bool) : List String → List String → List String
  | acc, [] => acc.reverse
  | acc, comp :: rest =>
    if comp = "" ∨ comp = "." then normSplit absolute acc rest
    else if comp ≠ ".." ∨ (¬ absolute ∧ acc = []) ∨ acc.head? = some ".." then
      normSplit absolute (comp :: acc) rest
    else
      match acc with
      | [] => normSplit absolute [] rest
      | _ :: acc' => normSplit absolute acc' rest

/-- Join path components with slashes (`'/'.join(comps)`). -/
def joinSlash : List String → String
  | [] => ""
  | [x] => x
  | x :: y :: t => x ++ "/" ++ joinSlash (y :: t)

/-- CPython's `posixpath.normpath`. -/
def normpath (p : String) : String :=
  if p = "" then "." else
  let absolute := strStartsWith p "/"
  let slashes : Nat :=
    if strStartsWith p "//" ∧ ¬ strStartsWith p "///" then 2
    else if absolute then 1 else 0
  let comps := normSplit absolute [] (pathComps p)
  let joined := joinSlash comps
  let res := String.mk (List.replicate slashes '/') ++ joined
  if res = "" then "." else res

/-- Two-argument `os.path.join(a, b)` for a non-empty `a`: `b` wins if
absolute, else they are glued with a slash. -/
def joinPath (a b : String) : String :=
  if strStartsWith b "/" then b else a ++ "/" ++ b

/-! ## Notebook documents and kernel normalization

The parts of the nbformat document that `normalize_kernel_name`
(run_notebooks.py lines 68-99) reads and writes.
-/

/-- `nb.metadata.kernelspec`. -/
structure Kernelspec where
  name : String
  display_name : String
  language : String
deriving Repr, DecidableEq

/-- `nb.metadata.language_info`. -/
structure LanguageInfo where
  version : String
deriving Repr, DecidableEq

/-- `nb.metadata`. -/
structure NbMetadata where
  kernelspec : Kernelspec
  language_info : LanguageInfo
deriving Repr, DecidableEq

/-- A notebook document as read by `nf.read`: the metadata the script
inspects plus the remaining content, which normalization never touches. -/
structure Notebook where
  metadata : NbMetadata
  cells : List String
deriving Repr, DecidableEq

/-- The metadata rewrite of `normalize_kernel_name` (lines 88-97):
an environment-scoped python kernel is renamed to `python3`/`Python 3`
when the declared language version starts with `"3."`, and to
`python2`/`Python 2` otherwise. -/
def normalize_kernel_name (nb : Notebook) : Notebook :=
  let kernelspec := nb.metadata.kernelspec
  if strContains kernelspec.display_name "[conda env:" then
    if kernelspec.language = "python" then
      if strStartsWith nb.metadata.language_info.version "3." then
        { nb with metadata := { nb.metadata with kernelspec :=
          { kernelspec with name := "python3", display_name := "Python 3" } } }
      else
        { nb with metadata := { nb.metadata with kernelspec :=
          { kernelspec with name := "python2", display_name := "Python 2" } } }
    else nb
  else nb

/-! ## File-system state of the Batch Rebuilder -/

/-- The file-system state the Batch Rebuilder touches: whether `./tmp`
exists, how many times `os.makedirs` has been called, and the line
contents of the two log files (`none` = file absent). -/
structure FS where
  tmpDir : Bool
  mkdirCalls : Nat
  nb_errors : List String
  ipynb_files_built : List String
deriving Repr, DecidableEq

/-- The paths dict returned by `generate_paths` (line 64). -/
structure Paths where
  path_save_tmp_file : String
deriving Repr, DecidableEq

/-- `generate_paths` (lines 31-66): normalize the notebook path, create
`./tmp` if it is absent (`os.makedirs`, lines 57-58), and return the
staging path `op.join('tmp', op.basename(notebook_path))`. -/
def generate_paths (fs : FS) (notebook_path : String) : FS × Paths :=
  let notebook_path := normpath notebook_path
  let fs := if fs.tmpDir then fs
            else { fs with tmpDir := true, mkdirCalls := fs.mkdirCalls + 1 }
  (fs, ⟨joinPath "tmp" (basename notebook_path)⟩)

/-- The staging half of `rebuild_notebook` (lines 117-125): generate
the paths (creating `./tmp` lazily) and write the normalized document
to the staging path.  Returns the new file system, the path written,
and the document written there. -/
def stage_notebook (fs : FS) (notebook_path : String) (nb : Notebook) :
    FS × String × Notebook :=
  let r := generate_paths fs notebook_path
  (r.1, r.2.path_save_tmp_file, normalize_kernel_name nb)

/-! ## Batch Rebuilder main flow (`run_notebooks.py` lines 136-219)

A run is parameterized by an execution oracle giving, for each loop
iteration (the `total_num` of `enumerate`) and notebook path, whether
`rebuild_notebook` returns normally, raises an ordinary exception
(nbformat read error, papermill cell error, ...), or raises the
`Exception('Notebook build timed out.')` injected by the SIGALRM
handler while that notebook was being processed.  The `try/except`
of the loop (lines 179-187) treats the last two identically.
-/

/-- Outcome of one `rebuild_notebook` call under the loop's `try`. -/
inductive ExecOutcome
  | ok
  | err
  | timeout
deriving Repr, DecidableEq

/-- Whether the outcome lands in the `except Exception` branch. -/
def isFailure : ExecOutcome → Bool
  | .ok => false
  | .err => true
  | .timeout => true

/-- Observable events of a run, in order: arming the alarm
(`signal.alarm(570)`, line 166) and each per-notebook attempt
(the call `rebuild_notebook(notebook)`, line 180). -/
inductive Event
  | armAlarm : Nat → Event
  | attempt : String → Event
deriving Repr, DecidableEq

/-- `Event.attempt` recognizer. -/
def isAttempt : Event → Bool
  | .attempt _ => true
  | .armAlarm _ => false

/-- The mutable state of the rebuild loop (lines 170-187). -/
structure LoopState where
  fs : FS
  problem_notebooks : List String
  failed_count : Nat
  total_notebooks_built : Nat
deriving Repr, DecidableEq

/-- The `for total_num, notebook in enumerate(notebooks_to_rebuild)`
loop (lines 175-187).  Each iteration attempts `rebuild_notebook`:
the `generate_paths` file-system effect happens first (the tmp dir is
created even if the attempt then raises), then the oracle decides the
outcome; a failure appends the notebook to `problem_notebooks` and the
loop continues.  Also returns the events emitted. -/
def runLoop (exec : Nat → String → ExecOutcome) :
    Nat → LoopState → List String → LoopState × List Event
  | _, st, [] => (st, [])
  | i, st, notebook :: rest =>
    let st1 : LoopState :=
      if isFailure (exec i notebook) then
        { st with fs := (generate_paths st.fs notebook).1,
                  problem_notebooks := st.problem_notebooks ++ [notebook],
                  failed_count := st.failed_count + 1 }
      else
        { st with fs := (generate_paths st.fs notebook).1,
                  total_notebooks_built := st.total_notebooks_built + 1 }
    let r := runLoop exec (i + 1) st1 rest
    (r.1, Event.attempt notebook :: r.2)

/-- The notebooks the loop appends to `problem_notebooks`, starting
from iteration counter `i`: those whose attempt fails. -/
def failedOf (exec : Nat → String → ExecOutcome) : Nat → List String → List String
  | _, [] => []
  | i, notebook :: rest =>
    (if isFailure (exec i notebook) then [notebook] else []) ++ failedOf exec (i + 1) rest

/-- The `succeeded`/`failed` outcome lists of one run
(the RebuildReport of the specification). -/
structure RebuildReport where
  succeeded : List String
  failed : List String
deriving Repr, DecidableEq

/-- Everything observable about one invocation of `run_notebooks.py`:
the final file system, the `sys.exit` message if the run aborted
early, the report, and the ordered event trace. -/
structure RunOutput where
  fs : FS
  exitMsg : Option String
  report : RebuildReport
  trace : List Event
deriving Repr, DecidableEq

/-- The whole script run (lines 136-219) on argument list
`argv = sys.argv[1:]` and initial file system `fs`:

* no arguments → `sys.exit('No notebooks to rebuild.')` (line 153)
  before any other effect;
* otherwise sort the paths (line 142), register the SIGALRM handler
  and arm the single 570-second alarm (lines 163-166), run the loop,
  remove `./tmp` if it exists (lines 194-196), append
  `problem_notebooks` to `nb_errors.txt` (lines 208-211, `'a'` mode),
  and overwrite `ipynb_files_built.txt` (lines 214-219, `'w'` mode)
  with the run's paths that are not in `problem_notebooks`.
  (The `if not nb is None` guards never skip: the paths are strings.) -/
def run_notebooks (exec : Nat → String → ExecOutcome) (argv : List String)
    (fs : FS) : RunOutput :=
  if argv = [] then
    { fs := fs, exitMsg := some "No notebooks to rebuild.",
      report := { succeeded := [], failed := [] }, trace := [] }
  else
    let notebooks_to_rebuild := pysorted argv
    let r := runLoop exec 0 ⟨fs, [], 0, 0⟩ notebooks_to_rebuild
    let st := r.1
    let fs1 := if st.fs.tmpDir then { st.fs with tmpDir := false } else st.fs
    let problem_notebooks := st.problem_notebooks
    let fs2 := { fs1 with nb_errors := fs1.nb_errors ++ problem_notebooks }
    let successful_notebooks :=
      notebooks_to_rebuild.filter (fun x => decide (x ∉ problem_notebooks))
    let fs3 := { fs2 with ipynb_files_built := successful_notebooks }
    { fs := fs3, exitMsg := none,
      report := { succeeded := successful_notebooks, failed := problem_notebooks },
      trace := Event.armAlarm 570 :: r.2 }

/-! ## Loop and run characterizations -/

theorem generate_paths_nb_errors (fs : FS) (p : String) :
    (generate_paths fs p).1.nb_errors = fs.nb_errors := by
  unfold generate_paths
  by_cases h : fs.tmpDir <;> simp [h]

theorem generate_paths_built_log (fs : FS) (p : String) :
    (generate_paths fs p).1.ipynb_files_built = fs.ipynb_files_built := by
  unfold generate_paths
  by_cases h : fs.tmpDir <;> simp [h]

theorem runLoop_snd (exec : Nat → String → ExecOutcome) :
    ∀ (l : List String) (i : Nat) (st : LoopState),
    (runLoop exec i st l).2 = l.map Event.attempt := by
  intro l
  induction l with
  | nil => intro i st; rfl
  | cons nb rest ih =>
    intro i st
    simp only [runLoop, List.map]
    rw [ih]

theorem runLoop_problem (exec : Nat → String → ExecOutcome) :
    ∀ (l : List String) (i : Nat) (st : LoopState),
    (runLoop exec i st l).1.problem_notebooks
      = st.problem_notebooks ++ failedOf exec i l := by
  intro l
  induction l with
  | nil => intro i st; simp [runLoop, failedOf]
  | cons nb rest ih =>
    intro i st
    cases hf : isFailure (exec i nb) <;>
      simp [runLoop, failedOf, hf, ih, List.append_assoc]

theorem runLoop_nb_errors (exec : Nat → String → ExecOutcome) :
    ∀ (l : List String) (i : Nat) (st : LoopState),
    (runLoop exec i st l).1.fs.nb_errors = st.fs.nb_errors := by
  intro l
  induction l with
  | nil => intro i st; rfl
  | cons nb rest ih =>
    intro i st
    cases hf : isFailure (exec i nb) <;>
      simp [runLoop, hf, ih, generate_paths_nb_errors]

theorem runLoop_built_log (exec : Nat → String → ExecOutcome) :
    ∀ (l : List String) (i : Nat) (st : LoopState),
    (runLoop exec i st l).1.fs.ipynb_files_built = st.fs.ipynb_files_built := by
  intro l
  induction l with
  | nil => intro i st; rfl
  | cons nb rest ih =>
    intro i st
    cases hf : isFailure (exec i nb) <;>
      simp [runLoop, hf, ih, generate_paths_built_log]

theorem mem_failedOf {exec : Nat → String → ExecOutcome} {x : String} :
    ∀ (l : List String) (i : Nat),
    (x ∈ failedOf exec i l
      ↔ ∃ q ∈ l.enumFrom i, q.2 = x ∧ isFailure (exec q.1 q.2) = true) := by
  intro l
  induction l with
  | nil => intro i; simp [failedOf, List.enumFrom]
  | cons nb rest ih =>
    intro i
    have henum : List.enumFrom i (nb :: rest) = (i, nb) :: List.enumFrom (i + 1) rest := rfl
    rw [henum]
    simp only [failedOf]
    constructor
    · intro hmem
      rcases List.mem_append.mp hmem with h1 | h1
      · cases hf : isFailure (exec i nb) with
        | false => rw [hf] at h1; simp at h1
        | true =>
          rw [hf] at h1
          simp only [if_true] at h1
          have hx : x = nb := by simpa using h1
          exact ⟨(i, nb), List.mem_cons_self _ _, by simp [hx, hf]⟩
      · rcases (ih (i + 1)).mp h1 with ⟨q, hq, hqs⟩
        exact ⟨q, List.mem_cons_of_mem _ hq, hqs⟩
    · rintro ⟨q, hq, hq2, hqf⟩
      rcases List.mem_cons.mp hq with rfl | hq
      · apply List.mem_append.mpr
        left
        simp only at hq2 hqf
        rw [hqf]
        simp [hq2]
      · exact List.mem_append.mpr (Or.inr ((ih (i + 1)).mpr ⟨q, hq, hq2, hqf⟩))

theorem failedOf_subset {exec : Nat → String → ExecOutcome} {x : String} :
    ∀ (l : List String) (i : Nat), x ∈ failedOf exec i l → x ∈ l := by
  intro l
  induction l with
  | nil => intro i h; simp [failedOf] at h
  | cons nb rest ih =>
    intro i h
    simp only [failedOf] at h
    rcases List.mem_append.mp h with h1 | h1
    · cases hf : isFailure (exec i nb) with
      | false => rw [hf] at h1; simp at h1
      | true =>
        rw [hf] at h1
        have hx : x = nb := by simpa using h1
        exact hx ▸ List.mem_cons_self _ _
    · exact List.mem_cons_of_mem _ (ih _ h1)

theorem run_notebooks_failed (exec : Nat → String → ExecOutcome)
    (argv : List String) (fs : FS) (h : argv ≠ []) :
    (run_notebooks exec argv fs).report.failed = failedOf exec 0 (pysorted argv) := by
  rw [run_notebooks, if_neg h]
  simp [runLoop_problem]

theorem run_notebooks_succeeded (exec : Nat → String → ExecOutcome)
    (argv : List String) (fs : FS) (h : argv ≠ []) :
    (run_notebooks exec argv fs).report.succeeded
      = (pysorted argv).filter
          (fun x => decide (x ∉ failedOf exec 0 (pysorted argv))) := by
  rw [run_notebooks, if_neg h]
  simp [runLoop_problem]

theorem run_notebooks_trace (exec : Nat → String → ExecOutcome)
    (argv : List String) (fs : FS) (h : argv ≠ []) :
    (run_notebooks exec argv fs).trace
      = Event.armAlarm 570 :: (pysorted argv).map Event.attempt := by
  rw [run_notebooks, if_neg h]
  simp [runLoop_snd]

theorem run_notebooks_nb_errors (exec : Nat → String → ExecOutcome)
    (argv : List String) (fs : FS) (h : argv ≠ []) :
    (run_notebooks exec argv fs).fs.nb_errors
      = fs.nb_errors ++ failedOf exec 0 (pysorted argv) := by
  rw [run_notebooks, if_neg h]
  have h1 := runLoop_nb_errors exec (pysorted argv) 0 ⟨fs, [], 0, 0⟩
  have h2 := runLoop_problem exec (pysorted argv) 0 ⟨fs, [], 0, 0⟩
  by_cases ht : (runLoop exec 0 ⟨fs, [], 0, 0⟩ (pysorted argv)).1.fs.tmpDir <;>
    simp [ht, h1, h2]

theorem run_notebooks_built_log (exec : Nat → String → ExecOutcome)
    (argv : List String) (fs : FS) (h : argv ≠ []) :
    (run_notebooks exec argv fs).fs.ipynb_files_built
      = (pysorted argv).filter
          (fun x => decide (x ∉ failedOf exec 0 (pysorted argv))) := by
  rw [run_notebooks, if_neg h]
  simp [runLoop_problem]

/-! ## Concrete fixtures for witnesses and counterexamples -/

/-- Initial file system: no tmp dir, no log files written yet. -/
def fs0 : FS := ⟨false, 0, [], []⟩

/-- Oracle: every notebook execution succeeds. -/
def execAllOk : Nat → String → ExecOutcome := fun _ _ => ExecOutcome.ok

/-- Oracle: execution raises exactly on the notebook `b.ipynb`. -/
def execFailB : Nat → String → ExecOutcome :=
  fun _ nb => if nb = "b.ipynb" then ExecOutcome.err else ExecOutcome.ok

/-- Oracle: the first attempt (iteration 0) raises, all later ones
return normally. -/
def execFailFirst : Nat → String → ExecOutcome :=
  fun i _ => if i = 0 then ExecOutcome.err else ExecOutcome.ok

/-- Oracle: the alarm fires during iteration 1; other iterations
return normally. -/
def execTimeoutSecond : Nat → String → ExecOutcome :=
  fun i _ => if i = 1 then ExecOutcome.timeout else ExecOutcome.ok

/-- A conda-environment-scoped python 3 notebook. -/
def nb0 : Notebook :=
  ⟨⟨⟨"py", "Python [conda env:earth-analytics-python] *", "python"⟩, ⟨"3.8.2"⟩⟩,
    ["cells"]⟩

/-! ## Claims -/

/-- C1: for every non-empty input path list, the batch rebuild's report
partitions the input paths: as sets, succeeded and failed are disjoint
and their union equals the set of input paths (duplicates ignored) — no
path is silently dropped. -/
theorem C1_report_partitions_input (exec : Nat → String → ExecOutcome)
    (argv : List String) (fs : FS) (h : argv ≠ []) :
    (∀ p, (p ∈ (run_notebooks exec argv fs).report.succeeded
        ∨ p ∈ (run_notebooks exec argv fs).report.failed) ↔ p ∈ argv)
    ∧ (∀ p, p ∈ (run_notebooks exec argv fs).report.succeeded
        → p ∉ (run_notebooks exec argv fs).report.failed) := by
  rw [run_notebooks_succeeded exec argv fs h, run_notebooks_failed exec argv fs h]
  constructor
  · intro p
    constructor
    · rintro (hp | hp)
      · exact mem_pysorted.mp (List.mem_of_mem_filter hp)
      · exact mem_pysorted.mp (failedOf_subset _ _ hp)
    · intro hp
      by_cases hf : p ∈ failedOf exec 0 (pysorted argv)
      · exact Or.inr hf
      · exact Or.inl (List.mem_filter.mpr ⟨mem_pysorted.mpr hp, decide_eq_true hf⟩)
  · intro p hp
    exact of_decide_eq_true (List.mem_filter.mp hp).2

/-- Witness for C1 at the input list `["a.ipynb"]`. -/
theorem C1_report_partitions_input_witness :
    ((["a.ipynb"] : List String) ≠ [])
    ∧ ((∀ p, (p ∈ (run_notebooks execAllOk ["a.ipynb"] fs0).report.succeeded
        ∨ p ∈ (run_notebooks execAllOk ["a.ipynb"] fs0).report.failed) ↔ p ∈ ["a.ipynb"])
    ∧ (∀ p, p ∈ (run_notebooks execAllOk ["a.ipynb"] fs0).report.succeeded
        → p ∉ (run_notebooks execAllOk ["a.ipynb"] fs0).report.failed)) :=
  ⟨by decide, C1_report_partitions_input execAllOk ["a.ipynb"] fs0 (by decide)⟩

/-- C2: the Change Detector returns exactly the order-preserving
sublist of the whitespace-stripped input lines that end in `.ipynb`:
a sublist of the stripped lines (nothing added, nothing reordered),
every retained entry has the suffix, and entries with the suffix are
retained with their exact multiplicity (nothing removed beyond the
filter, no deduplication). -/
theorem C2_detect_is_suffix_filter (L : List String) :
    (changed_notebooks L).Sublist (stripAll L)
    ∧ (∀ s ∈ changed_notebooks L, strEndsWith s ".ipynb" = true)
    ∧ (∀ s, strEndsWith s ".ipynb" = true
        → (changed_notebooks L).count s = (stripAll L).count s) := by
  refine ⟨List.filter_sublist _, ?_, ?_⟩
  · intro s hs
    exact (List.mem_filter.mp hs).2
  · intro s hs
    exact List.count_filter hs

/-- C4 as stated is false: on the input line `readme.md` the filtered
list is empty, yet the Change Detector still produces an (empty)
output file — a caller observes an existing empty file, not a missing
one. -/
theorem C4_empty_output_counterexample :
    changed_notebooks ["readme.md"] = []
    ∧ parse_commit_write ["readme.md"] = some []
    ∧ parse_commit_write ["readme.md"] ≠ none := by decide

/-- C4 amended: the output file is always created (opened in write
mode, which truncates); the filtered paths are its lines, so when the
filtered list is empty the caller observes an existing empty output
file rather than a missing one. -/
theorem C4_output_file_always_created (content : List String) :
    parse_commit_write content = some (changed_notebooks content) := by
  unfold parse_commit_write
  by_cases h : (changed_notebooks content).length > 0
  · simp [h]
  · have hlen : (changed_notebooks content).length = 0 := by omega
    have hnil : changed_notebooks content = [] := List.length_eq_zero.mp hlen
    simp [h, hnil]

/-- C5: called with an empty path list, the Batch Rebuilder exits
immediately with the usage message and performs no work: the file
system is untouched (in particular the tmp staging directory is not
created), no notebook is attempted, the alarm is not armed, and the
report is empty. -/
theorem C5_empty_args_fail_fast (exec : Nat → String → ExecOutcome) (fs : FS) :
    run_notebooks exec [] fs
      = { fs := fs, exitMsg := some "No notebooks to rebuild.",
          report := { succeeded := [], failed := [] }, trace := [] } := by
  rfl

theorem filter_isAttempt_map (l : List String) :
    (l.map Event.attempt).filter isAttempt = l.map Event.attempt := by
  apply List.filter_eq_self.mpr
  intro a ha
  rcases List.mem_map.mp ha with ⟨nb, _, rfl⟩
  rfl

/-- C3 as stated is false: on the input list `["b.ipynb", "a.ipynb"]`
the notebooks are attempted as `a.ipynb` then `b.ipynb` — the script
sorts the argument list (line 142) before the loop, so the attempt
order is not the command-line order. -/
theorem C3_input_order_counterexample :
    (run_notebooks execAllOk ["b.ipynb", "a.ipynb"] fs0).trace.filter isAttempt
      = ["a.ipynb", "b.ipynb"].map Event.attempt
    ∧ (run_notebooks execAllOk ["b.ipynb", "a.ipynb"] fs0).trace.filter isAttempt
      ≠ ["b.ipynb", "a.ipynb"].map Event.attempt := by decide

/-- C3 amended: for every non-empty input path list the Batch
Rebuilder attempts the notebooks strictly one at a time, in the
lexicographically (code-point) sorted order of the input paths — a
permutation of the input, ordered by `strLe` — rather than in
command-line order. -/
theorem C3_attempts_sequential_sorted (exec : Nat → String → ExecOutcome)
    (argv : List String) (fs : FS) (h : argv ≠ []) :
    (run_notebooks exec argv fs).trace.filter isAttempt
      = (pysorted argv).map Event.attempt
    ∧ List.Perm (pysorted argv) argv
    ∧ List.Sorted (fun a b => strLe a b = true) (pysorted argv) := by
  refine ⟨?_, pysorted_perm argv, pysorted_sorted argv⟩
  rw [run_notebooks_trace exec argv fs h]
  simp [List.filter_cons, isAttempt, filter_isAttempt_map]

/-- Witness for C3 (amended) at the input list `["b.ipynb", "a.ipynb"]`. -/
theorem C3_attempts_sequential_sorted_witness :
    ((["b.ipynb", "a.ipynb"] : List String) ≠ [])
    ∧ ((run_notebooks execAllOk ["b.ipynb", "a.ipynb"] fs0).trace.filter isAttempt
        = (pysorted ["b.ipynb", "a.ipynb"]).map Event.attempt
    ∧ List.Perm (pysorted ["b.ipynb", "a.ipynb"]) ["b.ipynb", "a.ipynb"]
    ∧ List.Sorted (fun a b => strLe a b = true) (pysorted ["b.ipynb", "a.ipynb"])) :=
  ⟨by decide, C3_attempts_sequential_sorted execAllOk ["b.ipynb", "a.ipynb"] fs0 (by decide)⟩

/-- C6: per-notebook failure is isolated.  If some attempt of `x`
raises (any exception during normalization or execution), `x` is
recorded in `failed` under its original input path; if no attempt of
`y` raises, `y` ends up in `succeeded`; and the loop still attempts
every notebook of the (sorted) input list. -/
theorem C6_failure_isolated (exec : Nat → String → ExecOutcome)
    (argv : List String) (fs : FS) (x y : String)
    (hx : x ∈ argv) (hy : y ∈ argv)
    (hxfail : ∃ q ∈ (pysorted argv).enumFrom 0,
        q.2 = x ∧ isFailure (exec q.1 q.2) = true)
    (hyok : ∀ q ∈ (pysorted argv).enumFrom 0,
        q.2 = y → exec q.1 q.2 = ExecOutcome.ok) :
    x ∈ (run_notebooks exec argv fs).report.failed
    ∧ y ∈ (run_notebooks exec argv fs).report.succeeded
    ∧ (run_notebooks exec argv fs).trace.filter isAttempt
        = (pysorted argv).map Event.attempt := by
  have h : argv ≠ [] := List.ne_nil_of_mem hx
  refine ⟨?_, ?_, ?_⟩
  · rw [run_notebooks_failed exec argv fs h]
    exact (mem_failedOf _ 0).mpr hxfail
  · rw [run_notebooks_succeeded exec argv fs h]
    apply List.mem_filter.mpr
    refine ⟨mem_pysorted.mpr hy, decide_eq_true ?_⟩
    intro hmem
    rcases (mem_failedOf _ 0).mp hmem with ⟨q, hq, hq2, hqf⟩
    rw [hyok q hq hq2] at hqf
    simp [isFailure] at hqf
  · rw [run_notebooks_trace exec argv fs h]
    simp [List.filter_cons, isAttempt, filter_isAttempt_map]

/-- Witness for C6: `b.ipynb` fails, `a.ipynb` succeeds. -/
theorem C6_failure_isolated_witness :
    ("b.ipynb" ∈ (["a.ipynb", "b.ipynb"] : List String))
    ∧ ("a.ipynb" ∈ (["a.ipynb", "b.ipynb"] : List String))
    ∧ (∃ q ∈ (pysorted ["a.ipynb", "b.ipynb"]).enumFrom 0,
        q.2 = "b.ipynb" ∧ isFailure (execFailB q.1 q.2) = true)
    ∧ (∀ q ∈ (pysorted ["a.ipynb", "b.ipynb"]).enumFrom 0,
        q.2 = "a.ipynb" → execFailB q.1 q.2 = ExecOutcome.ok)
    ∧ ("b.ipynb" ∈ (run_notebooks execFailB ["a.ipynb", "b.ipynb"] fs0).report.failed
    ∧ "a.ipynb" ∈ (run_notebooks execFailB ["a.ipynb", "b.ipynb"] fs0).report.succeeded
    ∧ (run_notebooks execFailB ["a.ipynb", "b.ipynb"] fs0).trace.filter isAttempt
        = (pysorted ["a.ipynb", "b.ipynb"]).map Event.attempt) :=
  ⟨by decide, by decide, by decide, by decide,
    C6_failure_isolated execFailB ["a.ipynb", "b.ipynb"] fs0 "b.ipynb" "a.ipynb"
      (by decide) (by decide) (by decide) (by decide)⟩

/-- C7: the 570-second wall-clock alarm is armed exactly once, before
the first notebook is attempted, and never re-armed: the trace is the
single arming event followed by the per-notebook attempts.  If the
alarm fires during some attempt (outcome `timeout`), that notebook is
recorded as failed exactly like any other per-notebook failure. -/
theorem C7_single_alarm (exec : Nat → String → ExecOutcome)
    (argv : List String) (fs : FS) (h : argv ≠ []) :
    (run_notebooks exec argv fs).trace
      = Event.armAlarm 570 :: (pysorted argv).map Event.attempt
    ∧ (run_notebooks exec argv fs).trace.countP (fun e => !isAttempt e) = 1
    ∧ (∀ q ∈ (pysorted argv).enumFrom 0, exec q.1 q.2 = ExecOutcome.timeout
        → q.2 ∈ (run_notebooks exec argv fs).report.failed) := by
  refine ⟨run_notebooks_trace exec argv fs h, ?_, ?_⟩
  · rw [run_notebooks_trace exec argv fs h]
    rw [List.countP_cons]
    have hzero : ((pysorted argv).map Event.attempt).countP (fun e => !isAttempt e) = 0 := by
      apply List.countP_eq_zero.mpr
      intro a ha
      rcases List.mem_map.mp ha with ⟨nb, _, rfl⟩
      simp [isAttempt]
    rw [hzero]
    rfl
  · intro q hq hqt
    rw [run_notebooks_failed exec argv fs h]
    exact (mem_failedOf _ 0).mpr ⟨q, hq, rfl, by rw [hqt]; rfl⟩

/-- Witness for C7: the alarm fires during the second attempt. -/
theorem C7_single_alarm_witness :
    ((["a.ipynb", "b.ipynb"] : List String) ≠ [])
    ∧ ((run_notebooks execTimeoutSecond ["a.ipynb", "b.ipynb"] fs0).trace
        = Event.armAlarm 570 :: (pysorted ["a.ipynb", "b.ipynb"]).map Event.attempt
    ∧ (run_notebooks execTimeoutSecond ["a.ipynb", "b.ipynb"] fs0).trace.countP
        (fun e => !isAttempt e) = 1
    ∧ (∀ q ∈ (pysorted ["a.ipynb", "b.ipynb"]).enumFrom 0,
        execTimeoutSecond q.1 q.2 = ExecOutcome.timeout
        → q.2 ∈ (run_notebooks execTimeoutSecond ["a.ipynb", "b.ipynb"] fs0).report.failed)) :=
  ⟨by decide,
    C7_single_alarm execTimeoutSecond ["a.ipynb", "b.ipynb"] fs0 (by decide)⟩

/-! ## Staging-path facts for C8 -/

theorem splitOnChar_ne_nil (c : Char) : ∀ l : List Char, splitOnChar c l ≠ [] := by
  intro l
  induction l with
  | nil => simp [splitOnChar]
  | cons x xs ih =>
    by_cases hx : x = c
    · rw [show splitOnChar c (x :: xs) = [] :: splitOnChar c xs from by
        simp [splitOnChar, hx]]
      simp
    · cases hr : splitOnChar c xs with
      | nil => exact absurd hr ih
      | cons hd tl =>
        rw [show splitOnChar c (x :: xs) = (x :: hd) :: tl from by
          simp [splitOnChar, hx, hr]]
        simp

theorem splitOnChar_not_mem (c : Char) :
    ∀ (l : List Char) (comp : List Char), comp ∈ splitOnChar c l → c ∉ comp := by
  intro l
  induction l with
  | nil =>
    intro comp hc
    rw [show splitOnChar c [] = [[]] from rfl] at hc
    have : comp = [] := by simpa using hc
    simp [this]
  | cons x xs ih =>
    intro comp hc
    by_cases hx : x = c
    · rw [show splitOnChar c (x :: xs) = [] :: splitOnChar c xs from by
        simp [splitOnChar, hx]] at hc
      rcases List.mem_cons.mp hc with rfl | hc'
      · simp
      · exact ih comp hc'
    · cases hr : splitOnChar c xs with
      | nil => exact absurd hr (splitOnChar_ne_nil c xs)
      | cons hd tl =>
        rw [show splitOnChar c (x :: xs) = (x :: hd) :: tl from by
          simp [splitOnChar, hx, hr]] at hc
        rcases List.mem_cons.mp hc with rfl | hc'
        · intro hmem
          rcases List.mem_cons.mp hmem with hxc | hmem'
          · exact hx hxc.symm
          · exact ih hd (by rw [hr]; exact List.mem_cons_self _ _) hmem'
        · exact ih comp (by rw [hr]; exact List.mem_cons_of_mem _ hc')

theorem getLastD_mem {α : Type} (d : α) :
    ∀ l : List α, l ≠ [] → l.getLastD d ∈ l := by
  intro l
  induction l with
  | nil => intro h; exact absurd rfl h
  | cons x xs ih =>
    intro _
    cases hxs : xs with
    | nil => simp [List.getLastD]
    | cons y ys =>
      rw [show (x :: y :: ys).getLastD d = (y :: ys).getLastD d from rfl]
      exact List.mem_cons_of_mem _ (hxs ▸ ih (by simp [hxs]))

theorem basename_no_slash (p : String) : ('/' : Char) ∉ (basename p).toList := by
  unfold basename pathComps
  have hne : splitOnChar '/' p.toList ≠ [] := splitOnChar_ne_nil '/' p.toList
  have hmem : ((splitOnChar '/' p.toList).map String.mk).getLastD ""
      ∈ (splitOnChar '/' p.toList).map String.mk :=
    getLastD_mem _ _ (by simp only [ne_eq, List.map_eq_nil_iff]; exact hne)
  rcases List.mem_map.mp hmem with ⟨comp, hcomp, heq⟩
  rw [← heq]
  exact splitOnChar_not_mem '/' p.toList comp hcomp

theorem basename_not_absolute (p : String) :
    strStartsWith (basename p) "/" = false := by
  have h := basename_no_slash p
  unfold strStartsWith
  cases hb : (basename p).toList with
  | nil => rfl
  | cons c0 cs =>
    rw [hb] at h
    have hne : ('/' : Char) ≠ c0 := fun hc => h (hc ▸ List.mem_cons_self _ _)
    show List.isPrefixOf ['/'] (c0 :: cs) = false
    simp [List.isPrefixOf, hne]

theorem joinPath_tmp_basename (p : String) :
    joinPath "tmp" (basename p) = "tmp/" ++ basename p := by
  unfold joinPath
  rw [basename_not_absolute p]
  rfl

/-- C8 as stated is false on the staging path: for the input path
`"a.ipynb/"` the script stages at `tmp/a.ipynb` (the basename of the
`normpath`-normalized path), while the basename of the original path
is empty, so "staging directory plus basename of the original path"
would be `tmp/`. -/
theorem C8_staging_path_counterexample :
    (stage_notebook fs0 "a.ipynb/" nb0).2.1 = "tmp/a.ipynb"
    ∧ "tmp/" ++ basename "a.ipynb/" = "tmp/"
    ∧ (stage_notebook fs0 "a.ipynb/" nb0).2.1 ≠ "tmp/" ++ basename "a.ipynb/" := by
  decide

/-- C8 amended: for a notebook whose kernelspec display name contains
`[conda env:` and whose kernelspec language is `python`, the kernel
name/display-name pair is rewritten to `python3`/`Python 3` when the
declared language version starts with `3.` and to `python2`/`Python 2`
otherwise (everything else in the document is unchanged); the
(possibly rewritten) document is written to the staging path formed
from the staging directory plus the basename of the *normalized*
(`normpath`) original path; and the staging directory is created
lazily, only if absent. -/
theorem C8_normalize_and_stage (fs : FS) (p : String) (nb : Notebook)
    (hpat : strContains nb.metadata.kernelspec.display_name "[conda env:" = true)
    (hlang : nb.metadata.kernelspec.language = "python") :
    ((strStartsWith nb.metadata.language_info.version "3." = true
        → (normalize_kernel_name nb).metadata.kernelspec.name = "python3"
          ∧ (normalize_kernel_name nb).metadata.kernelspec.display_name = "Python 3")
    ∧ (strStartsWith nb.metadata.language_info.version "3." = false
        → (normalize_kernel_name nb).metadata.kernelspec.name = "python2"
          ∧ (normalize_kernel_name nb).metadata.kernelspec.display_name = "Python 2"))
    ∧ (normalize_kernel_name nb).cells = nb.cells
    ∧ (normalize_kernel_name nb).metadata.language_info = nb.metadata.language_info
    ∧ stage_notebook fs p nb
        = ((generate_paths fs p).1, "tmp/" ++ basename (normpath p),
            normalize_kernel_name nb)
    ∧ (generate_paths fs p).1.tmpDir = true
    ∧ (fs.tmpDir = true → (generate_paths fs p).1 = fs)
    ∧ (fs.tmpDir = false
        → (generate_paths fs p).1.mkdirCalls = fs.mkdirCalls + 1) := by
  refine ⟨⟨?_, ?_⟩, ?_, ?_, ?_, ?_, ?_, ?_⟩
  · intro h3
    simp [normalize_kernel_name, hpat, hlang, h3]
  · intro h3
    simp [normalize_kernel_name, hpat, hlang, h3]
  · unfold normalize_kernel_name
    by_cases h1 : strContains nb.metadata.kernelspec.display_name "[conda env:" <;>
      by_cases h2 : nb.metadata.kernelspec.language = "python" <;>
        by_cases h3 : strStartsWith nb.metadata.language_info.version "3." <;>
          simp [h1, h2, h3]
  · unfold normalize_kernel_name
    by_cases h1 : strContains nb.metadata.kernelspec.display_name "[conda env:" <;>
      by_cases h2 : nb.metadata.kernelspec.language = "python" <;>
        by_cases h3 : strStartsWith nb.metadata.language_info.version "3." <;>
          simp [h1, h2, h3]
  · show ((generate_paths fs p).1, (generate_paths fs p).2.path_save_tmp_file,
      normalize_kernel_name nb) = _
    rw [show (generate_paths fs p).2.path_save_tmp_file
        = joinPath "tmp" (basename (normpath p)) from by
      unfold generate_paths
      by_cases ht : fs.tmpDir <;> simp [ht]]
    rw [joinPath_tmp_basename]
  · unfold generate_paths
    by_cases ht : fs.tmpDir <;> simp [ht]
  · intro ht
    unfold generate_paths
    simp [ht]
  · intro ht
    unfold generate_paths
    simp [ht]

/-- Witness for C8 (amended) on a conda-env python 3.8 notebook staged
from `demos/a.ipynb`. -/
theorem C8_normalize_and_stage_witness :
    (strContains nb0.metadata.kernelspec.display_name "[conda env:" = true)
    ∧ (nb0.metadata.kernelspec.language = "python")
    ∧ (((strStartsWith nb0.metadata.language_info.version "3." = true
        → (normalize_kernel_name nb0).metadata.kernelspec.name = "python3"
          ∧ (normalize_kernel_name nb0).metadata.kernelspec.display_name = "Python 3")
    ∧ (strStartsWith nb0.metadata.language_info.version "3." = false
        → (normalize_kernel_name nb0).metadata.kernelspec.name = "python2"
          ∧ (normalize_kernel_name nb0).metadata.kernelspec.display_name = "Python 2"))
    ∧ (normalize_kernel_name nb0).cells = nb0.cells
    ∧ (normalize_kernel_name nb0).metadata.language_info = nb0.metadata.language_info
    ∧ stage_notebook fs0 "demos/a.ipynb" nb0
        = ((generate_paths fs0 "demos/a.ipynb").1,
            "tmp/" ++ basename (normpath "demos/a.ipynb"),
            normalize_kernel_name nb0)
    ∧ (generate_paths fs0 "demos/a.ipynb").1.tmpDir = true
    ∧ (fs0.tmpDir = true → (generate_paths fs0 "demos/a.ipynb").1 = fs0)
    ∧ (fs0.tmpDir = false
        → (generate_paths fs0 "demos/a.ipynb").1.mkdirCalls = fs0.mkdirCalls + 1)) :=
  ⟨by decide, by decide,
    C8_normalize_and_stage fs0 "demos/a.ipynb" nb0 (by decide) (by decide)⟩

/-- C9: post-batch logging.  Every failed path is appended to the
persistent failure log (append mode: the old contents stay in front),
nothing is appended when there were no failures, and the success log
is overwritten to hold exactly the paths of the current run that are
not in the failed set (it does not depend on its previous contents). -/
theorem C9_log_files (exec : Nat → String → ExecOutcome)
    (argv : List String) (fs : FS) (h : argv ≠ []) :
    (run_notebooks exec argv fs).fs.nb_errors
      = fs.nb_errors ++ (run_notebooks exec argv fs).report.failed
    ∧ ((run_notebooks exec argv fs).report.failed = []
        → (run_notebooks exec argv fs).fs.nb_errors = fs.nb_errors)
    ∧ (∀ p, p ∈ (run_notebooks exec argv fs).fs.ipynb_files_built
        ↔ p ∈ argv ∧ p ∉ (run_notebooks exec argv fs).report.failed)
    ∧ (run_notebooks exec argv fs).fs.ipynb_files_built
        = (run_notebooks exec argv fs).report.succeeded := by
  have hfail := run_notebooks_failed exec argv fs h
  have herr := run_notebooks_nb_errors exec argv fs h
  have hbuilt := run_notebooks_built_log exec argv fs h
  have hsucc := run_notebooks_succeeded exec argv fs h
  refine ⟨?_, ?_, ?_, ?_⟩
  · rw [herr, hfail]
  · intro hnil
    rw [hfail] at hnil
    rw [herr, hnil, List.append_nil]
  · intro p
    rw [hbuilt, hfail]
    constructor
    · intro hp
      have hmem := List.mem_filter.mp hp
      exact ⟨mem_pysorted.mp hmem.1, of_decide_eq_true hmem.2⟩
    · rintro ⟨hp1, hp2⟩
      exact List.mem_filter.mpr ⟨mem_pysorted.mpr hp1, decide_eq_true hp2⟩
  · rw [hbuilt, hsucc]

/-- Witness for C9: `b.ipynb` fails, `a.ipynb` succeeds. -/
theorem C9_log_files_witness :
    ((["a.ipynb", "b.ipynb"] : List String) ≠ [])
    ∧ ((run_notebooks execFailB ["a.ipynb", "b.ipynb"] fs0).fs.nb_errors
        = fs0.nb_errors ++ (run_notebooks execFailB ["a.ipynb", "b.ipynb"] fs0).report.failed
    ∧ ((run_notebooks execFailB ["a.ipynb", "b.ipynb"] fs0).report.failed = []
        → (run_notebooks execFailB ["a.ipynb", "b.ipynb"] fs0).fs.nb_errors = fs0.nb_errors)
    ∧ (∀ p, p ∈ (run_notebooks execFailB ["a.ipynb", "b.ipynb"] fs0).fs.ipynb_files_built
        ↔ p ∈ (["a.ipynb", "b.ipynb"] : List String)
          ∧ p ∉ (run_notebooks execFailB ["a.ipynb", "b.ipynb"] fs0).report.failed)
    ∧ (run_notebooks execFailB ["a.ipynb", "b.ipynb"] fs0).fs.ipynb_files_built
        = (run_notebooks execFailB ["a.ipynb", "b.ipynb"] fs0).report.succeeded) :=
  ⟨by decide, C9_log_files execFailB ["a.ipynb", "b.ipynb"] fs0 (by decide)⟩

/-- C10: duplicate masking.  If a path occurs more than once in the
input and at least one of its attempts fails, then the path appears
neither in the succeeded list nor in the success log, even when
another of its attempts succeeded: membership in `succeeded` is
decided by path value, not by occurrence. -/
theorem C10_duplicate_masking (exec : Nat → String → ExecOutcome)
    (argv : List String) (fs : FS) (p : String)
    (hdup : 2 ≤ argv.count p)
    (hfail : ∃ q ∈ (pysorted argv).enumFrom 0,
        q.2 = p ∧ isFailure (exec q.1 q.2) = true) :
    p ∉ (run_notebooks exec argv fs).report.succeeded
    ∧ p ∉ (run_notebooks exec argv fs).fs.ipynb_files_built := by
  have hp : p ∈ argv := List.count_pos_iff.mp (by omega)
  have h : argv ≠ [] := List.ne_nil_of_mem hp
  have hmemF : p ∈ failedOf exec 0 (pysorted argv) := (mem_failedOf _ 0).mpr hfail
  constructor
  · rw [run_notebooks_succeeded exec argv fs h]
    intro hp2
    exact (of_decide_eq_true (List.mem_filter.mp hp2).2) hmemF
  · rw [run_notebooks_built_log exec argv fs h]
    intro hp2
    exact (of_decide_eq_true (List.mem_filter.mp hp2).2) hmemF

/-- Witness for C10: `a.ipynb` appears twice, its first attempt fails
and its second attempt succeeds, yet it is excluded from the succeeded
list and the success log. -/
theorem C10_duplicate_masking_witness :
    (2 ≤ (["a.ipynb", "a.ipynb"] : List String).count "a.ipynb")
    ∧ (∃ q ∈ (pysorted ["a.ipynb", "a.ipynb"]).enumFrom 0,
        q.2 = "a.ipynb" ∧ isFailure (execFailFirst q.1 q.2) = true)
    ∧ (execFailFirst 1 "a.ipynb" = ExecOutcome.ok)
    ∧ ("a.ipynb" ∉ (run_notebooks execFailFirst ["a.ipynb", "a.ipynb"] fs0).report.succeeded
    ∧ "a.ipynb" ∉ (run_notebooks execFailFirst ["a.ipynb", "a.ipynb"] fs0).fs.ipynb_files_built) :=
  ⟨by decide, by decide, by decide,
    C10_duplicate_masking execFailFirst ["a.ipynb", "a.ipynb"] fs0 "a.ipynb"
      (by decide) (by decide)⟩
